import Mathlib

/-!
Verification development for the BioPsyKit core: the ECG outlier-correction
and heart-rate pipeline and the protocol-structure-driven aggregation engine.
The repository ships only notebooks and configuration under version control
here, so every operation is modelled from the specification text; each
definition's doc comment names the operation it embeds.
-/

namespace BioPsyKit

/-! ## Association-list dictionaries (Python `dict` model) -/

/-- Lookup by key in an association list, first match wins (Python dict access). -/
def lookupKey (k : String) : List (String × α) → Option α
  | [] => none
  | (k₁, v) :: rest => if k₁ = k then some v else lookupKey k rest

/-- Remove every entry with the given key (Python dict overwrite helper). -/
def removeKey (k : String) (l : List (String × α)) : List (String × α) :=
  l.filter (fun pr => pr.1 ≠ k)

/-- Concatenation of a list of lists. -/
def concatAll : List (List α) → List α
  | [] => []
  | l :: ls => l ++ concatAll ls

/-- Sequence a list of fallible computations, stopping at the first error. -/
def mapE (f : α → Except String β) : List α → Except String (List β)
  | [] => .ok []
  | a :: as =>
    match f a, mapE f as with
    | .error e, _ => .error e
    | .ok _, .error e => .error e
    | .ok b, .ok bs => .ok (b :: bs)

/-! ## ECG Pipeline: heart-rate derivation and outlier correction -/

/-- Modelled from the spec: Step 3 of the ECG Pipeline, instantaneous heart
rate = 60000 / corrected RR interval (ms).  The implementing module
(`EcgProcessor`) is not in the repository snapshot; only its notebook callers
are. -/
def instHeartRate (rr : ℚ) : ℚ := 60000 / rr

/-- Modelled from the spec: the HeartRateSeries derived from a corrected
BeatSeries, one bpm value per corrected RR interval. -/
def heartRateSeries (rrs : List ℚ) : List ℚ := rrs.map instHeartRate

/-- A beat of a BeatSeries after the classification pass: its raw RR interval
in milliseconds and whether any enabled outlier rule flagged it. -/
structure Beat where
  rr : ℚ
  flagged : Bool
deriving DecidableEq

/-- Modelled from the spec: the corrected interval series of the Outlier
Corrector — flagged beats are excluded from the corrected series and their
intervals are linearly interpolated using the interval before and after;
unflagged beats keep their raw interval.  The implementing function
(`EcgProcessor.correct_outlier`) is not in the repository snapshot. -/
def correctedIntervals (beats : List Beat) : List ℚ :=
  (List.range beats.length).map fun i =>
    if (beats.getD i ⟨0, false⟩).flagged then
      ((beats.getD (i - 1) ⟨0, false⟩).rr + (beats.getD (i + 1) ⟨0, false⟩).rr) / 2
    else
      (beats.getD i ⟨0, false⟩).rr

/-! ## Results registry -/

/-- Modelled from the spec: each aggregation run is named by a caller-chosen
identifier and stored in the results registry without overwriting prior
identifiers — DuplicateIdError if the identifier is reused, unless explicit
overwrite is requested.  The registry code (`BaseProtocol.compute_hr_results`
storage) is not in the repository snapshot. -/
def storeResult (reg : List (String × α)) (id : String) (overwrite : Bool)
    (res : α) : Except String (List (String × α)) :=
  match lookupKey id reg, overwrite with
  | some _, false => .error "DuplicateIdError"
  | _, _ => .ok ((id, res) :: removeKey id reg)

/-! ## Subphase splitting -/

/-- Contiguous subphase windows sliced by elapsed time from phase start,
one window per (name, duration-in-seconds) entry, on a 1 Hz sample grid. -/
def subphaseWindows (data : List ℚ) : List (String × Nat) → List (String × List ℚ)
  | [] => []
  | (n, dur) :: rest => (n, data.take dur) :: subphaseWindows (data.drop dur) rest

/-- Modelled from the spec: split_into_subphases slices each phase into
contiguous subphase windows by elapsed time from phase start and fails with
AlignmentError if the cumulative subphase duration exceeds the phase's actual
data span by more than one sample period (series are on the 1 s resampled
grid, so one sample per second).  Not in the repository snapshot. -/
def split_into_subphases (data : List ℚ) (subs : List (String × Nat)) :
    Except String (List (String × List ℚ)) :=
  if (subs.map (fun s => s.2)).sum > data.length + 1 then .error "AlignmentError"
  else .ok (subphaseWindows data subs)

/-! ## Normalization -/

/-- Normalization baseline policy: subtract or divide by the reference mean. -/
inductive NormMode where
  | subtract
  | divide
deriving DecidableEq

/-- Arithmetic mean of a series (0 on the empty series, as a convention). -/
def meanQ (xs : List ℚ) : ℚ := xs.sum / xs.length

/-- Normalize one series against a baseline mean, subtractively or divisively. -/
def normalizeSeries (mode : NormMode) (m : ℚ) (xs : List ℚ) : List ℚ :=
  match mode with
  | .subtract => xs.map (fun x => x - m)
  | .divide => xs.map (fun x => x / m)

/-- Modelled from the spec: normalize_to subtracts or divides every phase of a
subject by the mean of that subject's named reference phase.  If the reference
phase is absent the subject's data is left untouched.  Not in the repository
snapshot. -/
def normalize_to (mode : NormMode) (ref : String)
    (phs : List (String × List ℚ)) : List (String × List ℚ) :=
  match lookupKey ref phs with
  | none => phs
  | some rs => phs.map (fun pr => (pr.1, normalizeSeries mode (meanQ rs) pr.2))

/-! ## Ensemble operations: cut_phases and merge_dict -/

/-- A SubjectDataDict after per-phase processing: subject → phase → series
(the same nesting shape also hosts the phase-major orientation that
merge_dict produces). -/
abbrev SubjDict := List (String × List (String × List ℚ))

/-- Minimum of a list of lengths (0 on the empty list). -/
def minLen : List Nat → Nat
  | [] => 0
  | n :: ns => ns.foldl min n

/-- The lengths of every subject's occurrence of phase `p` in the dict. -/
def phaseLengths (d : SubjDict) (p : String) : List Nat :=
  d.filterMap (fun sr => (lookupKey p sr.2).map List.length)

/-- Shortest duration of phase `p` observed across all subjects, in samples. -/
def minLenPhase (d : SubjDict) (p : String) : Nat := minLen (phaseLengths d p)

/-- Modelled from the spec: cut_phases trims every subject's occurrence of a
phase to the shortest duration observed across subjects, discarding trailing
samples.  Not in the repository snapshot. -/
def cut_phases (d : SubjDict) : SubjDict :=
  d.map (fun sr => (sr.1, sr.2.map (fun pr => (pr.1, pr.2.take (minLenPhase d pr.1)))))

/-- Modelled from the spec: merge_dict regroups a subject-major dict into
phase-major nesting, so that each phase's series across all subjects are
co-located; the phase keys are taken from the first subject's entry.  Not in
the repository snapshot. -/
def merge_dict (d : SubjDict) : SubjDict :=
  match d with
  | [] => []
  | (_, row₀) :: _ =>
    row₀.map (fun pr =>
      (pr.1, d.filterMap (fun sr => (lookupKey pr.1 sr.2).map (fun v => (sr.1, v)))))

/-- A rectangular SubjectDataDict: every row key from `rows`, every inner key
list equal to `cols`, the series given by `f`.  This is the well-formed shape
the spec's data model prescribes (keys unique per level, nesting matching the
protocol structure). -/
def gridDict (rows cols : List String) (f : String → String → List ℚ) : SubjDict :=
  rows.map (fun r => (r, cols.map (fun c => (c, f r c))))

/-! ## Entry-algorithm pipelines -/

/-- Toggleable pipeline steps of the Aggregation Engine's entry algorithms. -/
structure StepFlags where
  resample : Bool
  normalize : Bool
  select : Bool
  split : Bool
  cut : Bool
  meanPerSubject : Bool
  merge : Bool
  addConditions : Bool
deriving DecidableEq

/-- Parameters of the toggleable steps. -/
structure StepParams where
  normalizeMode : NormMode
  normalizeRef : String
  selectNames : List String
  subphaseDurs : List (String × Nat)
  conditionList : List (String × String)

/-- Modelled from the spec and the notebook documentation of
`BaseProtocol.compute_hr_results`: default step toggles of the
result-table entry algorithm — resample on, normalize_to off, select_phases
off, split_into_subphases off, mean_per_subject on, add_conditions off. -/
def resultsDefaultFlags : StepFlags :=
  { resample := true, normalize := false, select := false, split := false,
    cut := false, meanPerSubject := true, merge := false, addConditions := false }

/-- Modelled from the notebook documentation of
`BaseProtocol.compute_hr_ensemble` (src/unnamed/part_001): default step
toggles of the ensemble entry algorithm — resample on, normalize_to ON,
select_phases off, cut_phases on, merge_dict on, add_conditions off. -/
def ensembleDefaultFlags : StepFlags :=
  { resample := true, normalize := true, select := false, split := false,
    cut := true, meanPerSubject := false, merge := true, addConditions := false }

/-- Normalization stage: applied per subject when the flag is on. -/
def applyNormalize (flags : StepFlags) (params : StepParams) (d : SubjDict) : SubjDict :=
  if flags.normalize then
    d.map (fun sr => (sr.1, normalize_to params.normalizeMode params.normalizeRef sr.2))
  else d

/-- Phase-selection stage: restricts each subject to the named phases,
preserving original relative order, when the flag is on. -/
def applySelect (flags : StepFlags) (params : StepParams) (d : SubjDict) : SubjDict :=
  if flags.select then
    d.map (fun sr => (sr.1, sr.2.filter (fun pr => params.selectNames.contains pr.1)))
  else d

/-- Subphase-splitting stage: replaces every phase's series by its subphase
windows (keyed phase_subphase), failing with AlignmentError as
split_into_subphases does, when the flag is on. -/
def applySplit (flags : StepFlags) (params : StepParams) (d : SubjDict) :
    Except String SubjDict :=
  if flags.split then
    mapE (fun sr => do
      let rows ← mapE (fun pr => do
        let ws ← split_into_subphases pr.2 params.subphaseDurs
        pure (ws.map (fun w => (pr.1 ++ "_" ++ w.1, w.2)))) sr.2
      pure (sr.1, concatAll rows)) d
  else .ok d

/-- cut_phases stage (ensemble only), when the flag is on. -/
def applyCut (flags : StepFlags) (d : SubjDict) : SubjDict :=
  if flags.cut then cut_phases d else d

/-- mean_per_subject stage: collapses each phase of each subject to the
singleton series holding its mean, when the flag is on. -/
def applyMean (flags : StepFlags) (d : SubjDict) : SubjDict :=
  if flags.meanPerSubject then
    d.map (fun sr => (sr.1, sr.2.map (fun pr => (pr.1, [meanQ pr.2]))))
  else d

/-- merge_dict stage (ensemble only), when the flag is on. -/
def applyMerge (flags : StepFlags) (d : SubjDict) : SubjDict :=
  if flags.merge then merge_dict d else d

/-- add_conditions stage: left-joins a subject → condition lookup onto the
subject keys, failing with LookupError if a subject is absent from the
lookup, when the flag is on. -/
def applyConditions (flags : StepFlags) (params : StepParams) (d : SubjDict) :
    Except String SubjDict :=
  if flags.addConditions then
    mapE (fun sr =>
      match lookupKey sr.1 params.conditionList with
      | none => .error "LookupError"
      | some cond => .ok (cond ++ "/" ++ sr.1, sr.2)) d
  else .ok d

/-- Modelled from the spec: the compute_results entry algorithm — the fixed
step ordering resample → normalize → select_phases → split_into_subphases →
mean_per_subject → add_conditions, each step toggleable.  Series are carried
on the 1 s resampled grid, on which the resample step is the identity.  Not
in the repository snapshot. -/
def compute_results (flags : StepFlags) (params : StepParams) (d : SubjDict) :
    Except String SubjDict := do
  let d₁ := applyNormalize flags params d
  let d₂ := applySelect flags params d₁
  let d₃ ← applySplit flags params d₂
  let d₄ := applyMean flags d₃
  applyConditions flags params d₄

/-- The compute_results pipeline with the normalization stage removed
outright, used to express that a run never normalizes. -/
def compute_results_noNorm (flags : StepFlags) (params : StepParams) (d : SubjDict) :
    Except String SubjDict := do
  let d₂ := applySelect flags params d
  let d₃ ← applySplit flags params d₂
  let d₄ := applyMean flags d₃
  applyConditions flags params d₄

/-- Modelled from the spec: the compute_ensemble entry algorithm — the fixed
step ordering resample → normalize → select_phases → cut_phases → merge_dict
→ add_conditions, each step toggleable.  Not in the repository snapshot. -/
def compute_ensemble (flags : StepFlags) (params : StepParams) (d : SubjDict) :
    Except String SubjDict := do
  let d₁ := applyNormalize flags params d
  let d₂ := applySelect flags params d₁
  let d₃ := applyCut flags d₂
  let d₄ := applyMerge flags d₃
  applyConditions flags params d₄

/-! ## Protocol Structure Model -/

/-- One node of a ProtocolStructure: `leaf` is the python `None` (no further
structure), `subs` a phase carrying named subphase durations in seconds,
`phases` a study part carrying named phases. -/
inductive StructureNode where
  | leaf : StructureNode
  | subs : List (String × Nat) → StructureNode
  | phases : List (String × StructureNode) → StructureNode

/-- The subphase durations of phase MIST1 of the MIST protocol structure, as
declared in the notebook (src/unnamed/part_001): Feedback has declared
duration 0 because it is of variable length and is later inferred from the
data. -/
def mist1Subphases : List (String × Nat) := [("BL", 60), ("AT", 240), ("FB", 0)]

/-- The ProtocolStructure of the spec's MIST scenario. -/
def mistStructure : List (String × StructureNode) :=
  [("Before", .leaf),
   ("MIST", .phases [("MIST1", .subs mist1Subphases)]),
   ("After", .leaf)]

/-- Total duration of a phase: the sum of its subphase durations, seconds. -/
def totalDuration (subs : List (String × Nat)) : Nat := (subs.map (fun s => s.2)).sum

/-- Total duration of a phase over optionally-known durations: `none` as soon
as any subphase duration is unknown (the spec's total-duration query). -/
def totalDurationOpt : List (String × Option Nat) → Option Nat
  | [] => some 0
  | (_, none) :: _ => none
  | (_, some d) :: rest => (totalDurationOpt rest).map (fun t => d + t)

/-- Modelled from the spec: a subphase declared with duration 0 is of
variable length; its duration is inferred from the data recorded for it, the
other durations keep their declared value.  Not in the repository snapshot. -/
def inferSubphaseDurations (subs : List (String × Nat)) (dataLen : Nat) :
    List (String × Nat) :=
  subs.map (fun pr => (pr.1, if pr.2 = 0 then dataLen else pr.2))

/-! ## BaseProtocol heart-rate data storage -/

/-- The mutable state of a BaseProtocol instance that the storage claims
touch: its heart-rate data keyed by study part, and its results registry. -/
structure BaseProtocolState where
  hr_data : List (String × SubjDict)
  hr_results : List (String × SubjDict)

/-- Modelled from the spec and the notebook (src/unnamed/part_001): when no
study_part argument is given, `BaseProtocol.add_hr_data` stores the
SubjectDataDict under a study part named "Study"; data added for a study part
replaces the entry under that key.  Not in the repository snapshot. -/
def add_hr_data (p : BaseProtocolState) (hr : SubjDict) (studyPart : Option String) :
    BaseProtocolState :=
  let key := studyPart.getD "Study"
  { p with hr_data := (key, hr) :: removeKey key p.hr_data }

/-! ## Concrete scenario data -/

/-- The spec's ensemble scenario: two subjects whose "Recovery" phases last
300 s and 60 s on the 1 s resampled grid. -/
def recoveryExample : SubjDict :=
  [("Vp01", [("Recovery", List.replicate 300 (70 : ℚ))]),
   ("Vp02", [("Recovery", List.replicate 60 (65 : ℚ))])]

/-- One subject with a baseline phase and a stress phase, used to exhibit a
run of the ensemble entry algorithm. -/
def c8Input : SubjDict := [("Vp01", [("Baseline", [80, 80]), ("Stress", [90])])]

/-- Step parameters naming "Baseline" as the normalization reference, as the
notebook's ensemble cell does. -/
def c8Params : StepParams :=
  { normalizeMode := .subtract, normalizeRef := "Baseline", selectNames := [],
    subphaseDurs := [], conditionList := [] }

/-! ## Helper lemmas -/

@[simp]
lemma lookupKey_nil (k : String) : lookupKey k ([] : List (String × α)) = none := rfl

@[simp]
lemma lookupKey_cons (k k₁ : String) (v : α) (rest : List (String × α)) :
    lookupKey k ((k₁, v) :: rest) = if k₁ = k then some v else lookupKey k rest := rfl

lemma concatAll_subphaseWindows (subs : List (String × Nat)) (data : List ℚ) :
    concatAll ((subphaseWindows data subs).map (fun w => w.2)) =
      data.take ((subs.map (fun s => s.2)).sum) := by
  induction subs generalizing data with
  | nil => simp [subphaseWindows, concatAll]
  | cons s rest ih =>
    obtain ⟨n, dur⟩ := s
    simp only [subphaseWindows, List.map_cons, concatAll, List.sum_cons, ih]
    rw [List.take_add]

lemma subphaseWindows_lengths (subs : List (String × Nat)) (data : List ℚ)
    (h : (subs.map (fun s => s.2)).sum ≤ data.length) :
    (subphaseWindows data subs).map (fun w => w.2.length) = subs.map (fun s => s.2) := by
  induction subs generalizing data with
  | nil => simp [subphaseWindows]
  | cons s rest ih =>
    obtain ⟨n, dur⟩ := s
    simp only [List.map_cons, List.sum_cons] at h
    simp only [subphaseWindows, List.map_cons, List.length_take]
    rw [ih (data.drop dur) (by simp only [List.length_drop]; omega),
      inf_eq_left.mpr (show dur ≤ data.length by omega)]

lemma lookupKey_map_value (k : String) (f : α → β) (l : List (String × α)) :
    lookupKey k (l.map (fun pr => (pr.1, f pr.2))) = (lookupKey k l).map f := by
  induction l with
  | nil => rfl
  | cons pr rest ih =>
    obtain ⟨k₁, v⟩ := pr
    by_cases hk : k₁ = k <;> simp [lookupKey, hk, ih]

lemma lookupKey_map_self (g : String → α) :
    ∀ (cols : List String) (c : String), c ∈ cols →
      lookupKey c (cols.map (fun x => (x, g x))) = some (g c) := by
  intro cols
  induction cols with
  | nil => intro c hc; cases hc
  | cons x xs ih =>
    intro c hc
    by_cases hx : x = c
    · subst hx; simp [lookupKey]
    · have hc₁ : c ∈ xs := by
        rcases List.mem_cons.mp hc with h | h
        · exact absurd h.symm hx
        · exact h
      simp [lookupKey, hx, ih c hc₁]

lemma filterMap_someF (f : α → β) (l : List α) :
    l.filterMap (fun a => some (f a)) = l.map f := by
  induction l with
  | nil => rfl
  | cons a as ih => simp [List.filterMap_cons, ih]

lemma sum_map_sub_const (xs : List ℚ) (m : ℚ) :
    (xs.map (fun x => x - m)).sum = xs.sum - xs.length * m := by
  induction xs with
  | nil => simp
  | cons a as ih =>
    simp only [List.map_cons, List.sum_cons, List.length_cons, ih]
    push_cast
    ring

lemma sum_map_div_const (xs : List ℚ) (m : ℚ) :
    (xs.map (fun x => x / m)).sum = xs.sum / m := by
  induction xs with
  | nil => simp
  | cons a as ih => simp [List.sum_cons, ih, div_add_div_same]

lemma meanQ_normalize_sub (xs : List ℚ) (h : xs ≠ []) :
    meanQ (normalizeSeries .subtract (meanQ xs) xs) = 0 := by
  have hn : (xs.length : ℚ) ≠ 0 :=
    Nat.cast_ne_zero.mpr (List.length_pos.mpr h).ne'
  simp only [normalizeSeries, meanQ, List.length_map, sum_map_sub_const]
  rw [sub_div, mul_comm, mul_div_assoc, div_self hn, mul_one, sub_self]

lemma meanQ_normalize_div (xs : List ℚ) (hm : meanQ xs ≠ 0) :
    meanQ (normalizeSeries .divide (meanQ xs) xs) = 1 := by
  simp only [normalizeSeries, meanQ, List.length_map, sum_map_div_const]
  rw [div_right_comm]
  exact div_self hm

lemma foldl_min_le_init : ∀ (ns : List ℕ) (a : ℕ), ns.foldl min a ≤ a := by
  intro ns
  induction ns with
  | nil => intro a; exact le_refl a
  | cons n ns ih =>
    intro a
    calc (n :: ns).foldl min a = ns.foldl min (min a n) := rfl
    _ ≤ min a n := ih (min a n)
    _ ≤ a := min_le_left a n

lemma foldl_min_le_mem : ∀ (ns : List ℕ) (a x : ℕ), x ∈ ns → ns.foldl min a ≤ x := by
  intro ns
  induction ns with
  | nil => intro a x hx; cases hx
  | cons n ns ih =>
    intro a x hx
    rcases List.mem_cons.mp hx with h | h
    · subst h
      calc (x :: ns).foldl min a = ns.foldl min (min a x) := rfl
      _ ≤ min a x := foldl_min_le_init ns (min a x)
      _ ≤ x := min_le_right a x
    · exact ih (min a n) x h

lemma foldl_min_mem : ∀ (ns : List ℕ) (a : ℕ), ns.foldl min a = a ∨ ns.foldl min a ∈ ns := by
  intro ns
  induction ns with
  | nil => intro a; exact Or.inl rfl
  | cons n ns ih =>
    intro a
    rcases ih (min a n) with h | h
    · rcases min_choice a n with hm | hm
      · exact Or.inl (by rw [List.foldl_cons, h, hm])
      · exact Or.inr (by rw [List.foldl_cons, h, hm]; exact List.mem_cons_self n ns)
    · exact Or.inr (List.mem_cons_of_mem n h)

lemma minLen_le_mem (l : List ℕ) (n : ℕ) (hn : n ∈ l) : minLen l ≤ n := by
  cases l with
  | nil => cases hn
  | cons m ms =>
    rcases List.mem_cons.mp hn with h | h
    · subst h; exact foldl_min_le_init ms n
    · exact foldl_min_le_mem ms m n h

lemma minLen_mem (l : List ℕ) (h : l ≠ []) : minLen l ∈ l := by
  cases l with
  | nil => exact absurd rfl h
  | cons m ms =>
    rcases foldl_min_mem ms m with h₁ | h₁
    · rw [minLen, h₁]; exact List.mem_cons_self m ms
    · exact List.mem_cons_of_mem m h₁

lemma merge_gridDict (rows cols : List String) (f : String → String → List ℚ)
    (hr : rows ≠ []) :
    merge_dict (gridDict rows cols f) = gridDict cols rows (fun c r => f r c) := by
  obtain ⟨r₀, rs, rfl⟩ := List.exists_cons_of_ne_nil hr
  show (cols.map (fun c => (c, f r₀ c))).map _ = _
  rw [List.map_map]
  apply List.map_congr_left
  intro c hc
  simp only [Function.comp]
  congr 1
  rw [gridDict, List.filterMap_map]
  have hcong : ∀ r ∈ r₀ :: rs,
      ((fun sr : String × List (String × List ℚ) =>
        (lookupKey c sr.2).map (fun v => (sr.1, v))) ∘
        (fun r => (r, cols.map (fun c => (c, f r c))))) r = some (r, f r c) := by
    intro r _
    simp only [Function.comp]
    rw [lookupKey_map_self (f r) cols c hc]
    rfl
  rw [List.filterMap_congr hcong, filterMap_someF]

/-! ## Claims -/

/-- C1: instantaneous heart rate is 60000 divided by the corrected RR
interval in milliseconds; a BeatSeries whose corrected RR intervals are all
1000 ms yields a HeartRateSeries that is constantly 60 bpm, and all-800 ms
intervals yield constantly 75 bpm. -/
theorem claim_C1 :
    (∀ r : ℚ, 0 < r → instHeartRate r = 60000 / r) ∧
    (∀ rrs : List ℚ, (∀ r ∈ rrs, r = 1000) →
      heartRateSeries rrs = List.replicate rrs.length 60) ∧
    (∀ rrs : List ℚ, (∀ r ∈ rrs, r = 800) →
      heartRateSeries rrs = List.replicate rrs.length 75) := by
  refine ⟨fun r _ => rfl, fun rrs h => ?_, fun rrs h => ?_⟩
  · have hlen : (heartRateSeries rrs).length = rrs.length := by
      simp [heartRateSeries]
    rw [← hlen]
    apply List.eq_replicate_of_mem
    intro b hb
    simp only [heartRateSeries, List.mem_map] at hb
    obtain ⟨r, hr, rfl⟩ := hb
    rw [h r hr]
    norm_num [instHeartRate]
  · have hlen : (heartRateSeries rrs).length = rrs.length := by
      simp [heartRateSeries]
    rw [← hlen]
    apply List.eq_replicate_of_mem
    intro b hb
    simp only [heartRateSeries, List.mem_map] at hb
    obtain ⟨r, hr, rfl⟩ := hb
    rw [h r hr]
    norm_num [instHeartRate]

/-- Witness for C1 at concrete inputs: three 1000 ms beats give [60, 60, 60],
two 800 ms beats give [75, 75]. -/
theorem claim_C1_witness :
    instHeartRate 1000 = 60000 / 1000 ∧
    heartRateSeries [1000, 1000, 1000] = List.replicate 3 60 ∧
    heartRateSeries [800, 800] = List.replicate 2 75 := by
  refine ⟨claim_C1.1 1000 (by norm_num), ?_, ?_⟩
  · exact claim_C1.2.1 [1000, 1000, 1000] (by decide)
  · exact claim_C1.2.2 [800, 800] (by decide)

/-- C4: when the outlier-correction pass flags no beat, the corrected
inter-beat interval series equals the raw interval series element by
element. -/
theorem claim_C4 (beats : List Beat) (h : ∀ b ∈ beats, b.flagged = false) :
    correctedIntervals beats = beats.map Beat.rr := by
  apply List.ext_getElem
  · simp [correctedIntervals]
  · intro i h₁ h₂
    have hi : i < beats.length := by simpa using h₂
    simp only [correctedIntervals, List.getElem_map, List.getElem_range]
    rw [List.getD_eq_getElem beats ⟨0, false⟩ hi, h beats[i] (List.getElem_mem hi)]
    simp

/-- Witness for C4: an outlier-free two-beat series is returned unchanged. -/
theorem claim_C4_witness :
    correctedIntervals [⟨800, false⟩, ⟨1000, false⟩] =
      List.map Beat.rr [⟨800, false⟩, ⟨1000, false⟩] :=
  claim_C4 [⟨800, false⟩, ⟨1000, false⟩] (by decide)

/-- C3: storing a result under an identifier not yet in the registry never
raises DuplicateIdError (the stored result is then retrievable under that
identifier), and storing under an already-used identifier without requesting
overwrite always raises DuplicateIdError, producing no updated registry. -/
theorem claim_C3 :
    (∀ (reg : List (String × α)) (id : String) (ov : Bool) (res : α),
        lookupKey id reg = none →
        storeResult reg id ov res = .ok ((id, res) :: removeKey id reg) ∧
        lookupKey id ((id, res) :: removeKey id reg) = some res) ∧
    (∀ (reg : List (String × α)) (id : String) (res v : α),
        lookupKey id reg = some v →
        storeResult reg id false res = .error "DuplicateIdError") := by
  constructor
  · intro reg id ov res h
    refine ⟨?_, by simp⟩
    simp [storeResult, h]
  · intro reg id res v h
    simp [storeResult, h]

/-- Witness for C3: a fresh identifier is stored, reusing it without
overwrite is refused. -/
theorem claim_C3_witness :
    (storeResult ([] : List (String × ℚ)) "hr_phases" false 60 =
      .ok [("hr_phases", 60)] ∧
     lookupKey "hr_phases" [("hr_phases", (60 : ℚ))] = some 60) ∧
    storeResult [("hr_phases", (60 : ℚ))] "hr_phases" false 75 =
      .error "DuplicateIdError" := by
  constructor
  · exact claim_C3.1 [] "hr_phases" false 60 rfl
  · exact claim_C3.2 [("hr_phases", 60)] "hr_phases" 75 60 (by decide)

/-- C2: when the subphase durations sum to exactly the phase's data length,
split_into_subphases succeeds and the windows are contiguous, cover the whole
phase (their concatenation is the phase series) and have exactly the declared
lengths (no gap, no overlap); when the cumulative duration exceeds the data
span by more than one sample period, it fails with AlignmentError. -/
theorem claim_C2 :
    (∀ (data : List ℚ) (subs : List (String × Nat)),
        (subs.map (fun s => s.2)).sum = data.length →
        split_into_subphases data subs = .ok (subphaseWindows data subs) ∧
        concatAll ((subphaseWindows data subs).map (fun w => w.2)) = data ∧
        (subphaseWindows data subs).map (fun w => w.2.length) =
          subs.map (fun s => s.2)) ∧
    (∀ (data : List ℚ) (subs : List (String × Nat)),
        (subs.map (fun s => s.2)).sum > data.length + 1 →
        split_into_subphases data subs = .error "AlignmentError") := by
  constructor
  · intro data subs h
    refine ⟨?_, ?_, ?_⟩
    · simp [split_into_subphases, h]
    · rw [concatAll_subphaseWindows, h, List.take_length]
    · exact subphaseWindows_lengths subs data (le_of_eq h)
  · intro data subs h
    simp [split_into_subphases, h]

/-- Witness for C2: durations 1+2 split a 3-sample phase exactly; durations
summing to 3 on a 1-sample phase exceed the span by more than one sample and
are refused. -/
theorem claim_C2_witness :
    (split_into_subphases [5, 6, 7] [("Start", 1), ("End", 2)] =
       .ok (subphaseWindows [5, 6, 7] [("Start", 1), ("End", 2)]) ∧
     concatAll ((subphaseWindows [5, 6, 7] [("Start", 1), ("End", 2)]).map
       (fun w => w.2)) = [5, 6, 7] ∧
     (subphaseWindows [5, 6, 7] [("Start", 1), ("End", 2)]).map
       (fun w => w.2.length) = [("Start", 1), ("End", 2)].map (fun s => s.2)) ∧
    split_into_subphases [5] [("Start", 3)] = .error "AlignmentError" := by
  constructor
  · exact claim_C2.1 [5, 6, 7] [("Start", 1), ("End", 2)] (by decide)
  · exact claim_C2.2 [5] [("Start", 3)] (by decide)

/-- C5: after normalize_to with a reference phase, the mean of the reference
phase's own normalized series is the baseline identity — 0 under subtractive
and 1 under divisive normalization (for the divisive mode the reference mean
must be nonzero, as division by it is otherwise undefined). -/
theorem claim_C5 (mode : NormMode) (ref : String) (phs : List (String × List ℚ))
    (rs : List ℚ) (href : lookupKey ref phs = some rs) (hne : rs ≠ [])
    (hdiv : mode = .divide → meanQ rs ≠ 0) :
    lookupKey ref (normalize_to mode ref phs) =
      some (normalizeSeries mode (meanQ rs) rs) ∧
    meanQ (normalizeSeries mode (meanQ rs) rs) =
      (if mode = .divide then 1 else 0) := by
  constructor
  · rw [normalize_to, href, lookupKey_map_value ref (normalizeSeries mode (meanQ rs)) phs,
      href]
    rfl
  · cases mode with
    | subtract => simpa using meanQ_normalize_sub rs hne
    | divide => simpa using meanQ_normalize_div rs (hdiv rfl)

/-- Witness for C5: normalizing two phases to "Baseline" (mean 60) gives the
baseline phase normalized mean 0 subtractively and 1 divisively. -/
theorem claim_C5_witness :
    (lookupKey "Baseline"
        (normalize_to .subtract "Baseline" [("Baseline", [50, 70]), ("Stress", [80])]) =
      some (normalizeSeries .subtract (meanQ [50, 70]) [50, 70]) ∧
     meanQ (normalizeSeries .subtract (meanQ [50, 70]) [50, 70]) =
      (if NormMode.subtract = .divide then 1 else 0)) ∧
    (lookupKey "Baseline"
        (normalize_to .divide "Baseline" [("Baseline", [50, 70]), ("Stress", [80])]) =
      some (normalizeSeries .divide (meanQ [50, 70]) [50, 70]) ∧
     meanQ (normalizeSeries .divide (meanQ [50, 70]) [50, 70]) =
      (if NormMode.divide = .divide then 1 else 0)) := by
  constructor
  · exact claim_C5 .subtract "Baseline" [("Baseline", [50, 70]), ("Stress", [80])]
      [50, 70] (by decide) (by decide) (by decide)
  · exact claim_C5 .divide "Baseline" [("Baseline", [50, 70]), ("Stress", [80])]
      [50, 70] (by decide) (by decide) (fun _ => by norm_num [meanQ])

set_option maxRecDepth 10000 in
/-- C6: cut_phases trims every subject's occurrence of a phase to the
shortest duration of that phase observed across subjects (the trimmed series
is a take-prefix, so only trailing samples are discarded, and the target
length is itself one of the observed lengths and no longer than any of them);
in particular two "Recovery" phases of 300 s and 60 s are both trimmed to
60 s before merge_dict is applied. -/
theorem claim_C6 :
    (∀ (d : SubjDict) (s p : String) (phs : List (String × List ℚ)) (xs : List ℚ),
        (s, phs) ∈ d → lookupKey p phs = some xs →
        (s, phs.map (fun pr => (pr.1, pr.2.take (minLenPhase d pr.1)))) ∈ cut_phases d ∧
        minLenPhase d p ≤ xs.length ∧ minLenPhase d p ∈ phaseLengths d p) ∧
    (cut_phases recoveryExample =
      [("Vp01", [("Recovery", List.replicate 60 (70 : ℚ))]),
       ("Vp02", [("Recovery", List.replicate 60 (65 : ℚ))])] ∧
     merge_dict (cut_phases recoveryExample) =
      [("Recovery", [("Vp01", List.replicate 60 (70 : ℚ)),
                     ("Vp02", List.replicate 60 (65 : ℚ))])]) := by
  constructor
  · intro d s p phs xs hd hlk
    have hmem : xs.length ∈ phaseLengths d p :=
      List.mem_filterMap.mpr ⟨(s, phs), hd, by rw [hlk]; rfl⟩
    refine ⟨?_, minLen_le_mem _ _ hmem, minLen_mem _ (List.ne_nil_of_mem hmem)⟩
    exact List.mem_map_of_mem _ hd
  · constructor
    · decide
    · decide

set_option maxRecDepth 10000 in
/-- Witness for C6: the general trimming property applied to the two-subject
"Recovery" scenario. -/
theorem claim_C6_witness :
    ("Vp01", [("Recovery", List.replicate 300 (70 : ℚ))].map
        (fun pr => (pr.1, pr.2.take (minLenPhase recoveryExample pr.1)))) ∈
      cut_phases recoveryExample ∧
    minLenPhase recoveryExample "Recovery" ≤ (List.replicate 300 (70 : ℚ)).length ∧
    minLenPhase recoveryExample "Recovery" ∈ phaseLengths recoveryExample "Recovery" :=
  claim_C6.1 recoveryExample "Vp01" "Recovery"
    [("Recovery", List.replicate 300 (70 : ℚ))] (List.replicate 300 (70 : ℚ))
    (by decide) (by decide)

/-- C7: on a well-formed (rectangular) subject-major SubjectDataDict,
merge_dict regroups into phase-major nesting — phase p maps to every
subject's series for p — and applying the same regrouping to the output
recovers the original subject-major dict exactly. -/
theorem claim_C7 (subs ps : List String) (f : String → String → List ℚ)
    (hsubs : subs ≠ []) (hps : ps ≠ []) :
    merge_dict (gridDict subs ps f) = gridDict ps subs (fun p s => f s p) ∧
    merge_dict (merge_dict (gridDict subs ps f)) = gridDict subs ps f := by
  have h₁ := merge_gridDict subs ps f hsubs
  have h₂ := merge_gridDict ps subs (fun p s => f s p) hps
  exact ⟨h₁, by rw [h₁, h₂]⟩

/-- Witness for C7: a two-subject, two-phase dict survives the round trip. -/
theorem claim_C7_witness :
    merge_dict (gridDict ["Vp01", "Vp02"] ["Stress", "Recovery"]
        (fun s p => [(s.length : ℚ), (p.length : ℚ)])) =
      gridDict ["Stress", "Recovery"] ["Vp01", "Vp02"]
        (fun p s => [(s.length : ℚ), (p.length : ℚ)]) ∧
    merge_dict (merge_dict (gridDict ["Vp01", "Vp02"] ["Stress", "Recovery"]
        (fun s p => [(s.length : ℚ), (p.length : ℚ)]))) =
      gridDict ["Vp01", "Vp02"] ["Stress", "Recovery"]
        (fun s p => [(s.length : ℚ), (p.length : ℚ)]) :=
  claim_C7 ["Vp01", "Vp02"] ["Stress", "Recovery"]
    (fun s p => [(s.length : ℚ), (p.length : ℚ)]) (by decide) (by decide)

/-- C8 counterexample: a compute_ensemble run with the default step toggles —
the caller does not enable normalize_to, exactly like the notebook's
`compute_hr_ensemble("hr_ensemble", params={"normalize_to": "Baseline"})`
cell — produces a different output than the same run with normalization
disabled: normalization IS applied by default in the ensemble entry
algorithm, refuting the claim that normalize_to is off by default for both
entry algorithms. -/
theorem claim_C8_counterexample :
    compute_ensemble ensembleDefaultFlags c8Params c8Input ≠
      compute_ensemble { ensembleDefaultFlags with normalize := false } c8Params c8Input := by
  have hmean : meanQ [(80 : ℚ), 80] = 80 := by norm_num [meanQ]
  have hn : applyNormalize ensembleDefaultFlags c8Params c8Input =
      [("Vp01", [("Baseline", ([0, 0] : List ℚ)), ("Stress", ([10] : List ℚ))])] := by
    simp only [applyNormalize, ensembleDefaultFlags, c8Params, c8Input, if_true,
      normalize_to, lookupKey, normalizeSeries, List.map_cons, List.map_nil, hmean]
    norm_num
  have h₁ : compute_ensemble ensembleDefaultFlags c8Params c8Input =
      .ok [("Baseline", [("Vp01", ([0, 0] : List ℚ))]),
           ("Stress", [("Vp01", ([10] : List ℚ))])] := by
    show Except.ok (applyMerge ensembleDefaultFlags (applyCut ensembleDefaultFlags
      (applySelect ensembleDefaultFlags c8Params
        (applyNormalize ensembleDefaultFlags c8Params c8Input)))) = _
    rw [hn]
    rfl
  have h₂ : compute_ensemble { ensembleDefaultFlags with normalize := false }
      c8Params c8Input =
      .ok [("Baseline", [("Vp01", ([80, 80] : List ℚ))]),
           ("Stress", [("Vp01", ([90] : List ℚ))])] := rfl
  rw [h₁, h₂]
  simp only [ne_eq, Except.ok.injEq, List.cons.injEq, Prod.mk.injEq]
  norm_num

/-- C8 (amended): normalize_to is off by default in the compute_results entry
algorithm — a default run is identical to the pipeline with the normalization
stage removed — but the compute_ensemble entry algorithm enables normalize_to
by default. -/
theorem claim_C8 :
    (∀ (params : StepParams) (d : SubjDict),
        compute_results resultsDefaultFlags params d =
          compute_results_noNorm resultsDefaultFlags params d) ∧
    resultsDefaultFlags.normalize = false ∧
    ensembleDefaultFlags.normalize = true :=
  ⟨fun _ _ => rfl, rfl, rfl⟩

/-- C9: in the MIST protocol structure, inferring the variable-length FB
subphase of phase MIST1 from 90 s of data gives a total inferred phase
duration of 60 + 240 + 90 = 390 s, whereas the declared durations sum to
300 s, and the total-duration query over optionally-known durations answers
`none` as soon as a subphase duration is unknown. -/
theorem claim_C9 :
    totalDuration (inferSubphaseDurations mist1Subphases 90) = 390 ∧
    totalDuration mist1Subphases = 300 ∧
    totalDurationOpt [("BL", some 60), ("AT", some 240), ("FB", none)] = none := by
  decide

/-- C10: add_hr_data without an explicit study part stores the heart-rate
SubjectDataDict under the study part named "Study", and the hr_data property
returns it unchanged under that key. -/
theorem claim_C10 (p : BaseProtocolState) (d : SubjDict) :
    lookupKey "Study" (add_hr_data p d none).hr_data = some d := by
  simp [add_hr_data, lookupKey]

end BioPsyKit
